import Mathlib

/-!
Verification of the terminal image renderer's core (sizing policy, Unicode
glyph compositing, background alpha-compositing, 256-color quantization and
base64 chunking for the graphics protocols).

Modelling conventions:
* Machine integers (`u8`, `u16`, `u32`, `usize`) are modelled as `ℕ`; every
  arithmetic expression in the embedded code stays far below its type's
  modulus (channel values ≤ 255, cell counts ≤ 65535, sums ≤ 765), so no
  explicit wrap-around is required.
* `f32` scalar arithmetic (scale factors, alpha blending) is modelled exactly
  over `ℚ`.  At every concrete input used in a theorem below the `f32`
  computation of the source is exact (the values involved are small dyadic
  rationals or the comparison has integer slack), so the `ℚ` model and the
  source agree there.
* Rust's `f32::round` (round half away from zero) is modelled for nonnegative
  arguments, the only ones that occur, as `⌊q + 1/2⌋`.
* The pixel grid of an image is modelled as a total function `ℕ → ℕ → Rgba`;
  the renderer only ever samples coordinates inside `width × height`.
-/

/-- An RGB triple, source type `[u8; 3]`. -/
structure Rgb where
  r : ℕ
  g : ℕ
  b : ℕ
deriving DecidableEq, Repr

/-- An RGBA pixel, source type `image::Rgba<u8>`. -/
structure Rgba where
  r : ℕ
  g : ℕ
  b : ℕ
  a : ℕ
deriving DecidableEq, Repr

/-- A decoded pixel buffer, source type `image::RgbaImage`. -/
structure Img where
  width : ℕ
  height : ℕ
  pix : ℕ → ℕ → Rgba

/-- Source struct `Frame` (src/image.rs): an owned RGBA buffer plus a display
delay (the delay, a `Duration`, is modelled in milliseconds). -/
structure Frame where
  pixels : Img
  delay : ℕ

/-- Source struct `RgbColor` (src/config.rs). -/
structure RgbColor where
  r : ℕ
  g : ℕ
  b : ℕ
deriving DecidableEq, Repr

/-- Source struct `RenderSizing` (src/config.rs lines 108-117). -/
structure RenderSizing where
  width_cells : Option ℕ
  height_cells : Option ℕ
  fit_width : Bool
  fit_height : Bool
  upscale : Bool
  upscale_integer : Bool
  width_stretch : ℚ
  antialias : Bool

/-- Source `RenderSizing::unconstrained` (src/config.rs lines 120-131). -/
def RenderSizing.unconstrained : RenderSizing :=
  { width_cells := none, height_cells := none, fit_width := false,
    fit_height := false, upscale := false, upscale_integer := false,
    width_stretch := 1, antialias := true }

/-- Source struct `TerminalSize` (src/capabilities.rs lines 23-28). -/
structure TerminalSize where
  columns : ℕ
  rows : ℕ
  width_pixels : Option ℕ
  height_pixels : Option ℕ

/-- Source struct `BackgroundStyle` (src/backend/mod.rs lines 50-54). -/
structure BackgroundStyle where
  color : Option RgbColor
  pattern : Option RgbColor
  pattern_size : ℕ

/-- Source enum `PixelationMode` (src/config.rs). -/
inductive PixelationMode where
  | Half
  | Quarter
deriving DecidableEq, Repr

/-- Source struct `RenderOptions` (src/backend/mod.rs lines 40-47). -/
structure RenderOptions where
  sizing : RenderSizing
  terminal : TerminalSize
  background : BackgroundStyle
  pixelation : PixelationMode
  use_8bit_color : Bool
  compress_level : ℕ

/-- Source struct `RenderedFrame` (src/backend/mod.rs lines 57-62). -/
structure RenderedFrame where
  lines : List String
  width_cells : ℕ
  height_cells : ℕ
  delay : ℕ

/-- Source enum `QuarterBlock` (src/backend/unicode.rs lines 13-26). -/
inductive QuarterBlock where
  | Empty
  | TopLeft
  | TopRight
  | BotLeft
  | BotRight
  | Top
  | Bottom
  | Left
  | Right
  | TopLeftBotRight
  | TopRightBotLeft
  | Full
deriving DecidableEq, Repr

/-- Source `QuarterBlock::to_char` (src/backend/unicode.rs lines 29-44). -/
def QuarterBlock.to_char : QuarterBlock → Char
  | .Empty => ' '
  | .TopLeft => '▘'
  | .TopRight => '▝'
  | .BotLeft => '▖'
  | .BotRight => '▗'
  | .Top => '▀'
  | .Bottom => '▄'
  | .Left => '▌'
  | .Right => '▐'
  | .TopLeftBotRight => '▚'
  | .TopRightBotLeft => '▞'
  | .Full => '█'

/-- Rust `f32::round()` followed by `as u32`, for the nonnegative values that
occur in the sizing pipeline: round half away from zero. -/
def rustRound (q : ℚ) : ℕ := (⌊q + 1/2⌋).toNat

/-- Source `quantize_channel_to_6` (src/color_quantize.rs lines 37-53). -/
def quantize_channel_to_6 (value : ℕ) : ℕ :=
  if value < 48 then 0
  else if value < 115 then 1
  else if value < 155 then 2
  else if value < 195 then 3
  else if value < 235 then 4
  else 5

/-- Source `rgb_to_256` (src/color_quantize.rs lines 11-35): map an RGB triple
to an xterm-256 palette index. -/
def rgb_to_256 (r g b : ℕ) : ℕ :=
  let max_diff := max (max (Nat.dist r g) (Nat.dist r b)) (Nat.dist g b)
  if max_diff < 8 then
    let gray := (r + g + b) / 3
    if gray < 4 then 16
    else if 247 < gray then 231
    else 232 + min ((gray - 4) * 24 / 244) 23
  else
    16 + 36 * quantize_channel_to_6 r + 6 * quantize_channel_to_6 g +
      quantize_channel_to_6 b

/-- Source `checkerboard` (src/backend/image_util.rs lines 172-177). -/
def checkerboard (x y : ℕ) (pattern_size : ℕ) : Bool :=
  let size := max pattern_size 1
  let tile := size * 4
  let tile := max tile 1
  (x / tile + y / tile) % 2 == 0

/-- Source `pattern_rgb` (src/backend/image_util.rs lines 179-181). -/
def pattern_rgb (color : RgbColor) : Rgb := ⟨color.r, color.g, color.b⟩

/-- Source `background_rgb` (src/backend/image_util.rs lines 157-170). -/
def background_rgb (x y : ℕ) (background : BackgroundStyle) : Option Rgb :=
  match background.color, background.pattern with
  | none, none => none
  | some color, none => some ⟨color.r, color.g, color.b⟩
  | none, some pattern => some (pattern_rgb pattern)
  | some color, some pattern =>
      if checkerboard x y background.pattern_size then some (pattern_rgb pattern)
      else some ⟨color.r, color.g, color.b⟩

/-- One channel of the blend in `blend_transparency`
(src/backend/image_util.rs lines 146-151): `fg*alpha + bg*(1-alpha)`,
rounded and clamped to `[0, 255]`. -/
def blend_channel (fg bg : ℕ) (a : ℕ) : ℕ :=
  let alpha : ℚ := a / 255
  let inv : ℚ := 1 - alpha
  let blended : ℚ := fg * alpha + bg * inv
  (max 0 (min 255 ⌊blended + 1/2⌋)).toNat

/-- The per-pixel body of `blend_transparency`
(src/backend/image_util.rs lines 136-154). -/
def blend_pixel (x y : ℕ) (pixel : Rgba) (background : BackgroundStyle) : Rgba :=
  if 255 ≤ pixel.a then pixel
  else
    match background_rgb x y background with
    | some bg =>
        ⟨blend_channel pixel.r bg.r pixel.a, blend_channel pixel.g bg.g pixel.a,
         blend_channel pixel.b bg.b pixel.a, 255⟩
    | none => pixel

/-- Source `blend_transparency` (src/backend/image_util.rs lines 130-155):
returns the image unchanged when no background is configured, otherwise
blends every not-fully-opaque pixel against the resolved background. -/
def blend_transparency (image : Img) (background : BackgroundStyle) : Img :=
  if background.color = none ∧ background.pattern = none then image
  else { image with pix := fun x y => blend_pixel x y (image.pix x y) background }

/-- Source `sanitize_chunk_size` (src/backend/chunk_util.rs lines 84-92). -/
def sanitize_chunk_size (chunk_size : ℕ) : ℕ :=
  let chunk_size := max chunk_size 4
  let remainder := chunk_size % 4
  if remainder = 0 then chunk_size else chunk_size + (4 - remainder)

/-- Number of chunks for a nonempty encoded payload, source
`Base64Chunks::new` (src/backend/chunk_util.rs line 18). -/
def chunk_count (len size : ℕ) : ℕ := (len + size - 1) / size

/-- The sequence of slices produced by `Base64ChunkIter::next`
(src/backend/chunk_util.rs lines 73-80) on a nonempty payload: the i-th
chunk is `encoded[i*size .. min((i+1)*size, len)]`. -/
def chunksOf (size : ℕ) (l : List Char) : List (List Char) :=
  (List.range (chunk_count l.length size)).map fun i => (l.drop (i * size)).take size

/-- Modelled from the spec: the external base64 collaborator
(`base64::engine::general_purpose::STANDARD`), i.e. standard RFC 4648
base64 with `=` padding.  The alphabet table. -/
def base64Alphabet : List Char :=
  "ABCDEFGHIJKLMNOPQRSTUVWXYZabcdefghijklmnopqrstuvwxyz0123456789+/".data

/-- Character of the standard base64 alphabet at a 6-bit index. -/
def b64char (n : ℕ) : Char := base64Alphabet.getD n 'A'

/-- Modelled from the spec: `STANDARD.encode` of the external base64
collaborator — standard base64 of a byte sequence, with `=` padding. -/
def base64Encode : List ℕ → List Char
  | [] => []
  | [b0] => [b64char (b0 / 4), b64char (b0 % 4 * 16), '=', '=']
  | [b0, b1] =>
      [b64char (b0 / 4), b64char (b0 % 4 * 16 + b1 / 16), b64char (b1 % 16 * 4), '=']
  | b0 :: b1 :: b2 :: rest =>
      b64char (b0 / 4) :: b64char (b0 % 4 * 16 + b1 / 16) ::
        b64char (b1 % 16 * 4 + b2 / 64) :: b64char (b2 % 64) :: base64Encode rest

/-- Source `Base64Chunks::new` followed by collecting the iterator
(src/backend/chunk_util.rs lines 12-25 and 61-82): sanitize the requested
chunk size, base64-encode the payload once, then split the encoded text;
an empty encoding yields exactly one empty chunk. -/
def base64Chunks (data : List ℕ) (chunk_size : ℕ) : List (List Char) :=
  if base64Encode data = [] then [[]]
  else chunksOf (sanitize_chunk_size chunk_size) (base64Encode data)

/-- Cell-budget width for `scale_frame` (src/backend/image_util.rs lines 44-49). -/
def scale_frame_max_width_cells (srcW : ℕ) (sizing : RenderSizing)
    (terminal : TerminalSize) : ℕ :=
  min (max (sizing.width_cells.getD (min srcW terminal.columns)) 1) terminal.columns

/-- Cell-budget height for `scale_frame` (src/backend/image_util.rs lines 51-56). -/
def scale_frame_max_height_cells (srcH : ℕ) (sizing : RenderSizing)
    (terminal : TerminalSize) : ℕ :=
  min (max (sizing.height_cells.getD (min srcH terminal.rows)) 1) terminal.rows

/-- Width scale factor of `scale_frame` (src/backend/image_util.rs line 59). -/
def scale_frame_scale_width (srcW : ℕ) (sizing : RenderSizing)
    (terminal : TerminalSize) : ℚ :=
  (scale_frame_max_width_cells srcW sizing terminal : ℚ) / srcW

/-- Height scale factor of `scale_frame` (src/backend/image_util.rs line 60). -/
def scale_frame_scale_height (srcH : ℕ) (sizing : RenderSizing)
    (terminal : TerminalSize) : ℚ :=
  (scale_frame_max_height_cells srcH sizing terminal : ℚ) / srcH

/-- Fit-mode scale selection of `scale_frame`
(src/backend/image_util.rs lines 62-69). -/
def scale_frame_selected_scale (srcW srcH : ℕ) (sizing : RenderSizing)
    (terminal : TerminalSize) : ℚ :=
  let scale_width := scale_frame_scale_width srcW sizing terminal
  let scale_height := scale_frame_scale_height srcH sizing terminal
  if sizing.fit_width then scale_width
  else if sizing.fit_height then scale_height
  else min scale_width scale_height

/-- Upscale clamp of `scale_frame` (src/backend/image_util.rs lines 71-76). -/
def scale_frame_clamped_scale (srcW srcH : ℕ) (sizing : RenderSizing)
    (terminal : TerminalSize) : ℚ :=
  let scale := scale_frame_selected_scale srcW srcH sizing terminal
  if 1 < scale ∧ sizing.upscale = false then 1 else scale

/-- Integer-upscale constraint of `scale_frame`
(src/backend/image_util.rs lines 78-83). -/
def scale_frame_final_scale (srcW srcH : ℕ) (sizing : RenderSizing)
    (terminal : TerminalSize) : ℚ :=
  let scale := scale_frame_clamped_scale srcW srcH sizing terminal
  if sizing.upscale_integer = true ∧ 1 < scale then max ((⌊scale⌋ : ℤ) : ℚ) 1
  else scale

/-- Target pixel dimensions of `scale_frame`
(src/backend/image_util.rs lines 85-93): multiply the source dimensions by
the final scale, round, and force zero results to 1. -/
def scale_frame_target_dims (srcW srcH : ℕ) (sizing : RenderSizing)
    (terminal : TerminalSize) : ℕ × ℕ :=
  let scale := scale_frame_final_scale srcW srcH sizing terminal
  let target_width := rustRound (srcW * scale)
  let target_height := rustRound (srcH * scale)
  (if target_width = 0 then 1 else target_width,
   if target_height = 0 then 1 else target_height)

/-- Pixel dimensions of the bitmap the sixel encoder transmits: the sixel
render path (src/backend/sixel.rs line 25) feeds the frame through
`scale_frame`, so the encoded bitmap has the `scale_frame` target
dimensions (src/backend/image_util.rs lines 98-110). -/
def sixel_transmit_dims (srcW srcH : ℕ) (sizing : RenderSizing)
    (terminal : TerminalSize) : ℕ × ℕ :=
  scale_frame_target_dims srcW srcH sizing terminal

/-- Cell-budget width of `render_half_blocks`
(src/backend/unicode.rs lines 69-72). -/
def half_max_width_cells (srcW : ℕ) (sizing : RenderSizing)
    (terminal : TerminalSize) : ℕ :=
  min (max (sizing.width_cells.getD (min srcW terminal.columns)) 1) terminal.columns

/-- Pixel-row budget of `render_half_blocks`
(src/backend/unicode.rs lines 74-82): explicit cell height times two, or
the source height clamped to twice the terminal rows. -/
def half_max_height_pixels (srcH : ℕ) (sizing : RenderSizing)
    (terminal : TerminalSize) : ℕ :=
  match sizing.height_cells with
  | some cells => cells * 2
  | none => min srcH (max (terminal.rows * 2) 1)

/-- Width scale factor of `render_half_blocks` after the upscale clamp
(src/backend/unicode.rs lines 84 and 87-91). -/
def half_scale_width (srcW : ℕ) (sizing : RenderSizing)
    (terminal : TerminalSize) : ℚ :=
  let raw : ℚ := (half_max_width_cells srcW sizing terminal : ℚ) / srcW
  if sizing.upscale = false then min raw 1 else raw

/-- Height scale factor of `render_half_blocks` after the upscale clamp
(src/backend/unicode.rs lines 85 and 87-91). -/
def half_scale_height (srcH : ℕ) (sizing : RenderSizing)
    (terminal : TerminalSize) : ℚ :=
  let raw : ℚ := (half_max_height_pixels srcH sizing terminal : ℚ) / srcH
  if sizing.upscale = false then min raw 1 else raw

/-- Effective scale of `render_half_blocks`
(src/backend/unicode.rs lines 93-98): only `fit_width` is consulted. -/
def half_scale (srcW srcH : ℕ) (sizing : RenderSizing)
    (terminal : TerminalSize) : ℚ :=
  if sizing.fit_width then half_scale_width srcW sizing terminal
  else min (half_scale_width srcW sizing terminal) (half_scale_height srcH sizing terminal)

/-- Target pixel dimensions of `render_half_blocks`
(src/backend/unicode.rs lines 100-118): scale, apply `width_stretch` to the
width, cap at the cell budget, force zeroes to 1, round the height up to an
even number of pixel rows. -/
def half_target_dims (srcW srcH : ℕ) (sizing : RenderSizing)
    (terminal : TerminalSize) : ℕ × ℕ :=
  let scale := half_scale srcW srcH sizing terminal
  let base_width := rustRound (srcW * scale)
  let base_height := rustRound (srcH * scale)
  let stretched_width := rustRound (base_width * sizing.width_stretch)
  let target_width := min stretched_width (half_max_width_cells srcW sizing terminal)
  let target_width := if target_width = 0 then 1 else target_width
  let target_height := if base_height = 0 then 1 else base_height
  let target_height := if target_height % 2 ≠ 0 then target_height + 1 else target_height
  (target_width, target_height)

/-- Cell-budget width of `render_quarter_blocks`
(src/backend/unicode.rs lines 165-168). -/
def quarter_max_width_cells (srcW : ℕ) (sizing : RenderSizing)
    (terminal : TerminalSize) : ℕ :=
  min (max (sizing.width_cells.getD (min srcW terminal.columns)) 1) terminal.columns

/-- Pixel-row budget of `render_quarter_blocks`
(src/backend/unicode.rs lines 170-179). -/
def quarter_max_height_pixels (srcH : ℕ) (sizing : RenderSizing)
    (terminal : TerminalSize) : ℕ :=
  match sizing.height_cells with
  | some cells => cells * 2
  | none => min srcH (max (terminal.rows * 2) 1)

/-- Width scale factor of `render_quarter_blocks` after the upscale clamp
(src/backend/unicode.rs lines 181-189): each cell covers two pixel
columns. -/
def quarter_scale_width (srcW : ℕ) (sizing : RenderSizing)
    (terminal : TerminalSize) : ℚ :=
  let raw : ℚ := ((quarter_max_width_cells srcW sizing terminal * 2 : ℕ) : ℚ) / srcW
  if sizing.upscale = false then min raw 1 else raw

/-- Height scale factor of `render_quarter_blocks` after the upscale clamp
(src/backend/unicode.rs lines 183 and 185-189). -/
def quarter_scale_height (srcH : ℕ) (sizing : RenderSizing)
    (terminal : TerminalSize) : ℚ :=
  let raw : ℚ := (quarter_max_height_pixels srcH sizing terminal : ℚ) / srcH
  if sizing.upscale = false then min raw 1 else raw

/-- Effective scale of `render_quarter_blocks`
(src/backend/unicode.rs lines 191-196): only `fit_width` is consulted. -/
def quarter_scale (srcW srcH : ℕ) (sizing : RenderSizing)
    (terminal : TerminalSize) : ℚ :=
  if sizing.fit_width then quarter_scale_width srcW sizing terminal
  else min (quarter_scale_width srcW sizing terminal) (quarter_scale_height srcH sizing terminal)

/-- Source `resolve_color` (src/backend/unicode.rs lines 313-319): a pixel
with alpha below 16 is treated as transparent and replaced by the resolved
background color, if any. -/
def resolve_color (pixel : Rgba) (x y : ℕ) (background : BackgroundStyle) : Option Rgb :=
  if 16 ≤ pixel.a then some ⟨pixel.r, pixel.g, pixel.b⟩
  else background_rgb x y background

/-- Source `push_fg` (src/backend/unicode.rs lines 321-329). -/
def push_fg (rgb : Rgb) (use_8bit : Bool) : String :=
  if use_8bit then "\x1b[38;5;" ++ toString (rgb_to_256 rgb.r rgb.g rgb.b) ++ "m"
  else "\x1b[38;2;" ++ toString rgb.r ++ ";" ++ toString rgb.g ++ ";"
        ++ toString rgb.b ++ "m"

/-- Source `push_bg` (src/backend/unicode.rs lines 331-339). -/
def push_bg (rgb : Rgb) (use_8bit : Bool) : String :=
  if use_8bit then "\x1b[48;5;" ++ toString (rgb_to_256 rgb.r rgb.g rgb.b) ++ "m"
  else "\x1b[48;2;" ++ toString rgb.r ++ ";" ++ toString rgb.g ++ ";"
        ++ toString rgb.b ++ "m"

/-- Source `reset_bg` (src/backend/unicode.rs lines 341-343). -/
def reset_bg : String := "\x1b[49m"

/-- Source `append_half_block` (src/backend/unicode.rs lines 279-311),
returning the appended text. -/
def append_half_block (top bottom : Rgba) (x y : ℕ) (background : BackgroundStyle)
    (use_8bit : Bool) : String :=
  match resolve_color top x y background, resolve_color bottom x (y + 1) background with
  | none, none => "\x1b[0m "
  | some t, some b => push_fg t use_8bit ++ push_bg b use_8bit ++ "▀"
  | some t, none => push_fg t use_8bit ++ reset_bg ++ "▀"
  | none, some b => push_fg b use_8bit ++ reset_bg ++ "▄"

/-- One output line of `render_half_blocks`
(src/backend/unicode.rs lines 135-149): the cells of pixel rows `y` and
`y+1` followed by the full-reset escape; a missing bottom row is read as a
fully transparent pixel. -/
def half_block_line (scaled : Img) (y : ℕ) (background : BackgroundStyle)
    (use_8bit : Bool) : String :=
  String.join ((List.range scaled.width).map fun x =>
    append_half_block (scaled.pix x y)
      (if y + 1 < scaled.height then scaled.pix x (y + 1) else ⟨0, 0, 0, 0⟩)
      x y background use_8bit) ++ "\x1b[0m"

/-- Source `render_half_blocks` (src/backend/unicode.rs lines 65-159).
The external resampling collaborator (`image::imageops::resize`) is passed
in as `resample`; the source skips it when the target equals the source
dimensions.  The row loop starts at 0 and advances by 2 while below the
scaled height, i.e. `⌈scaled.height / 2⌉` lines. -/
def render_half_blocks (resample : Img → ℕ → ℕ → Img) (frame : Frame)
    (options : RenderOptions) : RenderedFrame :=
  let dims := half_target_dims frame.pixels.width frame.pixels.height
    options.sizing options.terminal
  let scaled :=
    if dims.1 = frame.pixels.width ∧ dims.2 = frame.pixels.height then frame.pixels
    else resample frame.pixels dims.1 dims.2
  { lines := (List.range ((scaled.height + 1) / 2)).map fun i =>
      half_block_line scaled (2 * i) options.background options.use_8bit_color,
    width_cells := dims.1,
    height_cells := dims.2 / 2,
    delay := frame.delay }

/-- Source `average_colors` (src/backend/unicode.rs lines 475-484):
channel-wise truncated integer mean. -/
def average_colors (colors : List Rgb) : Rgb :=
  if colors = [] then ⟨0, 0, 0⟩
  else
    ⟨(colors.map Rgb.r).sum / colors.length,
     (colors.map Rgb.g).sum / colors.length,
     (colors.map Rgb.b).sum / colors.length⟩

/-- Squared Euclidean RGB distance.  The source's `color_distance`
(src/backend/unicode.rs lines 486-491) is the `f32` square root of this
integer; for the similarity threshold the source compares that root
against 30.0, which (the radicand being an integer ≤ 3·255²) holds exactly
iff this squared distance is below 900. -/
def color_dist_sq (c1 c2 : Rgb) : ℕ :=
  Nat.dist c1.r c2.r ^ 2 + Nat.dist c1.g c2.g ^ 2 + Nat.dist c1.b c2.b ^ 2

/-- Source `colors_similar` (src/backend/unicode.rs lines 493-495): every
color within Euclidean distance 30 (exclusive) of the average. -/
def colors_similar (colors : List Rgb) (avg : Rgb) : Bool :=
  colors.all fun c => color_dist_sq c avg < 900

/-- Quadrant-assignment of the top-left pixel per glyph
(src/backend/unicode.rs line 449). -/
def tl_is_fg : QuarterBlock → Bool
  | .TopLeft | .Top | .Left | .TopLeftBotRight | .Full => true
  | _ => false

/-- Quadrant-assignment of the top-right pixel per glyph
(src/backend/unicode.rs line 450). -/
def tr_is_fg : QuarterBlock → Bool
  | .TopRight | .Top | .Right | .TopRightBotLeft | .Full => true
  | _ => false

/-- Quadrant-assignment of the bottom-left pixel per glyph
(src/backend/unicode.rs line 451). -/
def bl_is_fg : QuarterBlock → Bool
  | .BotLeft | .Bottom | .Left | .TopRightBotLeft | .Full => true
  | _ => false

/-- Quadrant-assignment of the bottom-right pixel per glyph
(src/backend/unicode.rs line 452). -/
def br_is_fg : QuarterBlock → Bool
  | .BotRight | .Bottom | .Right | .TopLeftBotRight | .Full => true
  | _ => false

/-- Per-candidate error of the quarter-block search
(src/backend/unicode.rs lines 446-462).  The source accumulates `f32`
Euclidean (square-root) distances with a fixed penalty of 100.0 for a
quadrant whose assigned set is empty; exact square roots are not
representable in `ℚ`, so this embedding accumulates the squared distances
(penalty kept at 100).  The claims proved in this file exercise only the
early-return paths of `find_best_quarter_block`, which never evaluate this
search. -/
def quarter_error (block : QuarterBlock) (fg_avg bg_avg : Option Rgb)
    (tl tr bl br : Option Rgb) : ℕ :=
  let term := fun (pixel : Option Rgb) (assigned_fg : Bool) =>
    match pixel with
    | some color =>
        match (if assigned_fg then fg_avg else bg_avg) with
        | some t => color_dist_sq color t
        | none => 100
    | none => 0
  term tl (tl_is_fg block) + term tr (tr_is_fg block)
    + term bl (bl_is_fg block) + term br (br_is_fg block)

/-- The twelve candidate glyph partitions, in source order
(src/backend/unicode.rs lines 411-424); ties favor the earlier entry. -/
def quarter_patterns (tl tr bl br : Option Rgb) :
    List (QuarterBlock × List (Option Rgb) × List (Option Rgb)) :=
  [(.Empty, [], [tl, tr, bl, br]),
   (.TopLeft, [tl], [tr, bl, br]),
   (.TopRight, [tr], [tl, bl, br]),
   (.BotLeft, [bl], [tl, tr, br]),
   (.BotRight, [br], [tl, tr, bl]),
   (.Top, [tl, tr], [bl, br]),
   (.Bottom, [bl, br], [tl, tr]),
   (.Left, [tl, bl], [tr, br]),
   (.Right, [tr, br], [tl, bl]),
   (.TopLeftBotRight, [tl, br], [tr, bl]),
   (.TopRightBotLeft, [tr, bl], [tl, br]),
   (.Full, [tl, tr, bl, br], [])]

/-- The `f32::MAX` initial best error (src/backend/unicode.rs line 408). -/
def f32MAX : ℕ := 340282346638528859811704183484516925440

/-- The exhaustive candidate loop of `find_best_quarter_block`
(src/backend/unicode.rs lines 404-472): skip candidates with an empty
foreground set (other than the empty glyph), average each set, and keep
the candidate with strictly smaller error. -/
def quarter_search (tl tr bl br : Option Rgb) :
    QuarterBlock × Option Rgb × Option Rgb :=
  let best := (quarter_patterns tl tr bl br).foldl
    (fun best p =>
      let fg_colors := p.2.1.filterMap id
      let bg_colors := p.2.2.filterMap id
      if fg_colors = [] ∧ p.1 ≠ QuarterBlock.Empty then best
      else
        let fg_avg := if fg_colors = [] then none else some (average_colors fg_colors)
        let bg_avg := if bg_colors = [] then none else some (average_colors bg_colors)
        let error := quarter_error p.1 fg_avg bg_avg tl tr bl br
        if error < best.2.2.2 then (p.1, fg_avg, bg_avg, error) else best)
    (QuarterBlock.Empty, none, none, f32MAX)
  (best.1, best.2.1, best.2.2.1)

/-- Source `find_best_quarter_block` (src/backend/unicode.rs lines 382-473):
all-transparent blocks yield the empty glyph; four present, mutually
similar colors yield the full block with the averaged color as foreground
and no background; otherwise the candidate search runs. -/
def find_best_quarter_block (tl tr bl br : Option Rgb) :
    QuarterBlock × Option Rgb × Option Rgb :=
  let count := ([tl, tr, bl, br].filter Option.isSome).length
  if count = 0 then (.Empty, none, none)
  else
    match tl, tr, bl, br with
    | some a, some b, some c, some d =>
        let avg := average_colors [a, b, c, d]
        if colors_similar [a, b, c, d] avg then (.Full, some avg, none)
        else quarter_search tl tr bl br
    | _, _, _, _ => quarter_search tl tr bl br

/-- Claim-side definition, written from the spec's words for C1: the
effective scale is the width factor alone under `fit_width`, the height
factor alone under `fit_height`, and otherwise the minimum of both. -/
def specEffectiveScale (width_factor height_factor : ℚ) (fw fh : Bool) : ℚ :=
  if fw then width_factor
  else if fh then height_factor
  else min width_factor height_factor

/-- Claim-side definition, written from the spec's words for C4: the
background color used at `(x, y)` — the solid color when only a solid is
configured, the pattern color when only a pattern is configured, and when
both are configured a checkerboard of the two with tile size
`max(pattern_size, 1) * 4` alternating by `(x/tile + y/tile) % 2`.
(The value of the unconfigured case is never used by the claim.) -/
def specBackground (x y : ℕ) (background : BackgroundStyle) : Rgb :=
  match background.color, background.pattern with
  | some color, none => ⟨color.r, color.g, color.b⟩
  | none, some pattern => ⟨pattern.r, pattern.g, pattern.b⟩
  | some color, some pattern =>
      let tile := max background.pattern_size 1 * 4
      if (x / tile + y / tile) % 2 = 0 then ⟨pattern.r, pattern.g, pattern.b⟩
      else ⟨color.r, color.g, color.b⟩
  | none, none => ⟨0, 0, 0⟩

/-- Claim-side definition, written from the spec's words for C4:
`out = fg*alpha + bg*(1-alpha)` per channel, rounded and clamped to
`[0, 255]`, with `alpha` the normalized source alpha. -/
def specBlendChannel (fg bg a : ℕ) : ℕ :=
  min 255 (⌊(fg : ℚ) * (a / 255) + (bg : ℚ) * (1 - (a : ℚ) / 255) + 1/2⌋).toNat

/-- Claim-side definition for C4: the fully blended pixel — each channel
blended against the claimed background color, alpha forced to 255. -/
def specBlendPixel (x y : ℕ) (pixel : Rgba) (background : BackgroundStyle) : Rgba :=
  ⟨specBlendChannel pixel.r (specBackground x y background).r pixel.a,
   specBlendChannel pixel.g (specBackground x y background).g pixel.a,
   specBlendChannel pixel.b (specBackground x y background).b pixel.a,
   255⟩

/-- An 80×24 terminal with no pixel-size report, as in the repository's own
tests. -/
def defaultTerminal : TerminalSize := ⟨80, 24, none, none⟩

/-- Sizing policy used in the C1 counterexample: explicit width of 2 cells
and `fit_height` set. -/
def c1Sizing : RenderSizing :=
  { RenderSizing.unconstrained with width_cells := some 2, fit_height := true }

/-- Sizing policy used in the C3 counterexample: explicit width of 5 cells,
`fit_width`, `upscale` and `upscale_integer` set. -/
def c3Sizing : RenderSizing :=
  { RenderSizing.unconstrained with
    width_cells := some 5
    fit_width := true
    upscale := true
    upscale_integer := true }

/-- A fully opaque red pixel. -/
def redPixel : Rgba := ⟨255, 0, 0, 255⟩

/-- A 2×2 fully opaque red frame. -/
def redFrame : Frame := ⟨⟨2, 2, fun _ _ => redPixel⟩, 0⟩

/-- No background configured. -/
def noBackground : BackgroundStyle := ⟨none, none, 1⟩

/-- Render options of the C7 scenario: half-block mode, explicit width of
one cell, no height constraint, truecolor output. -/
def c7Options : RenderOptions :=
  ⟨{ RenderSizing.unconstrained with width_cells := some 1 }, defaultTerminal,
   noBackground, .Half, false, 1⟩

/-- The single line the C7 scenario must produce: foreground-red escape,
background-red escape, upper-half-block glyph, full reset. -/
def redLine : String := "\x1b[38;2;255;0;0m\x1b[48;2;255;0;0m▀\x1b[0m"

/-- Resampler used by the C7 witness: returns a constant red buffer of the
requested size.  On a constant fully-red source every weighted-average
resampler (in particular the external `image::imageops::resize` with any
filter) produces exactly this. -/
def constRedResample : Img → ℕ → ℕ → Img :=
  fun _ w h => ⟨w, h, fun _ _ => redPixel⟩

/-- Background of the C4 witness: a solid dark-blue color only. -/
def c4Background : BackgroundStyle := ⟨some ⟨0, 0, 64⟩, none, 1⟩

/-- Image of the C4 witness: one half-transparent orange pixel. -/
def c4Image : Img := ⟨1, 1, fun _ _ => ⟨200, 100, 50, 51⟩⟩

/-- Color of the C6 witness. -/
def c6Color : Rgb := ⟨10, 20, 30⟩

theorem sanitize_chunk_size_ge (n : ℕ) : 4 ≤ sanitize_chunk_size n := by
  have h4 : 4 ≤ max n 4 := Nat.le_max_right _ _
  simp only [sanitize_chunk_size]
  split <;> omega

theorem sanitize_chunk_size_mod4 (n : ℕ) : sanitize_chunk_size n % 4 = 0 := by
  simp only [sanitize_chunk_size]
  split <;> omega

theorem base64Encode_length (l : List ℕ) :
    (base64Encode l).length = 4 * ((l.length + 2) / 3) := by
  induction l using base64Encode.induct with
  | case1 => simp [base64Encode]
  | case2 b0 => simp [base64Encode]
  | case3 b0 b1 => simp [base64Encode]
  | case4 b0 b1 b2 rest ih =>
      simp only [base64Encode, List.length_cons, ih]
      omega

theorem chunksOf_length (s : ℕ) (l : List Char) :
    (chunksOf s l).length = chunk_count l.length s := by
  simp [chunksOf]

theorem chunksOf_length_le (s : ℕ) (l : List Char) (c : List Char)
    (hc : c ∈ chunksOf s l) : c.length ≤ s := by
  simp only [chunksOf, List.mem_map, List.mem_range] at hc
  obtain ⟨i, _, rfl⟩ := hc
  exact List.length_take_le _ _

theorem chunksOf_dropLast_length (s : ℕ) (hs : 0 < s) (l : List Char)
    (c : List Char) (hc : c ∈ (chunksOf s l).dropLast) : c.length = s := by
  rw [List.mem_iff_get] at hc
  obtain ⟨⟨i, hi⟩, rfl⟩ := hc
  have hi2 : i < (chunksOf s l).length - 1 := by
    simpa [List.length_dropLast] using hi
  have hi3 : i < (chunksOf s l).length := by omega
  rw [List.get_eq_getElem, List.getElem_dropLast]
  have hcount : i + 1 < chunk_count l.length s := by
    have := chunksOf_length s l
    omega
  have hle : i + 2 ≤ (l.length + s - 1) / s := by
    simp only [chunk_count] at hcount
    omega
  have hmul := (Nat.le_div_iff_mul_le hs).mp hle
  have hexp : (i + 2) * s = i * s + 2 * s := by ring
  simp only [chunksOf, List.getElem_map, List.getElem_range, List.length_take,
    List.length_drop]
  omega

theorem range_map_take_flatten (l : List Char) (s : ℕ) (n : ℕ) :
    ((List.range n).map fun i => (l.drop (i * s)).take s).flatten
      = l.take (n * s) := by
  induction n with
  | zero => simp
  | succ n ih =>
      rw [List.range_succ, List.map_append, List.flatten_append]
      simp only [List.map_cons, List.map_nil, List.flatten_cons, List.flatten_nil,
        List.append_nil, ih]
      rw [show (n + 1) * s = n * s + s by ring, List.take_add]

theorem chunksOf_flatten (s : ℕ) (l : List Char) (hs : 0 < s) :
    (chunksOf s l).flatten = l := by
  unfold chunksOf
  rw [range_map_take_flatten]
  apply List.take_of_length_le
  have h1 : (l.length + s - 1) / s < chunk_count l.length s + 1 := by
    simp only [chunk_count]
    omega
  have h2 := (Nat.div_lt_iff_lt_mul hs).mp h1
  have h3 : (chunk_count l.length s + 1) * s = chunk_count l.length s * s + s := by
    ring
  omega

/-- C8: chunking an empty payload yields exactly one chunk, the empty
string; for a non-empty payload, every chunk except possibly the last has
length exactly the sanitized chunk size and a multiple of 4, and no chunk
exceeds the sanitized chunk size. -/
theorem c8_chunk_lengths (data : List ℕ) (chunk_size : ℕ) (_hdata : data ≠ []) :
    base64Chunks [] chunk_size = [[]] ∧
    (∀ c ∈ (base64Chunks data chunk_size).dropLast,
      c.length = sanitize_chunk_size chunk_size ∧ c.length % 4 = 0) ∧
    (∀ c ∈ base64Chunks data chunk_size,
      c.length ≤ sanitize_chunk_size chunk_size) := by
  have hs : 0 < sanitize_chunk_size chunk_size :=
    lt_of_lt_of_le (by norm_num) (sanitize_chunk_size_ge _)
  refine ⟨by simp [base64Chunks, base64Encode], ?_, ?_⟩ <;>
    by_cases henc : base64Encode data = []
  · simp [base64Chunks, henc]
  · intro c hc
    rw [show base64Chunks data chunk_size
        = chunksOf (sanitize_chunk_size chunk_size) (base64Encode data) from by
      simp [base64Chunks, henc]] at hc
    have hlen := chunksOf_dropLast_length _ hs _ _ hc
    exact ⟨hlen, by rw [hlen]; exact sanitize_chunk_size_mod4 _⟩
  · simp [base64Chunks, henc]
  · intro c hc
    rw [show base64Chunks data chunk_size
        = chunksOf (sanitize_chunk_size chunk_size) (base64Encode data) from by
      simp [base64Chunks, henc]] at hc
    exact chunksOf_length_le _ _ _ hc

/-- Witness for C8 at the concrete payload `[1, 2, 3]` with requested chunk
size 1024. -/
theorem c8_chunk_lengths_witness :
    ([1, 2, 3] : List ℕ) ≠ [] ∧
    (base64Chunks [] 1024 = [[]] ∧
     (∀ c ∈ (base64Chunks [1, 2, 3] 1024).dropLast,
       c.length = sanitize_chunk_size 1024 ∧ c.length % 4 = 0) ∧
     (∀ c ∈ base64Chunks [1, 2, 3] 1024,
       c.length ≤ sanitize_chunk_size 1024)) :=
  ⟨by decide, c8_chunk_lengths [1, 2, 3] 1024 (by decide)⟩

/-- C10: concatenating the produced chunks in order yields exactly the
standard base64 encoding of the whole payload; in particular the
concatenation for the empty payload is the empty string. -/
theorem c10_chunks_flatten (data : List ℕ) (chunk_size : ℕ) :
    (base64Chunks data chunk_size).flatten = base64Encode data := by
  by_cases henc : base64Encode data = []
  · simp [base64Chunks, henc]
  · have hs : 0 < sanitize_chunk_size chunk_size :=
      lt_of_lt_of_le (by norm_num) (sanitize_chunk_size_ge _)
    simp [base64Chunks, henc, chunksOf_flatten _ _ hs]

/-- C5 (code bug): the inline-graphics-protocol A encoder requests chunks
of 3072 *base64 characters* (`Base64Chunks::new(data, BASE64_CHUNK)` with
`BASE64_CHUNK = 3072` applied to the encoded text), not chunks covering
3072 raw bytes (4096 base64 characters).  At a 2307-byte payload (3076
base64 characters) the claim predicts a single chunk, but the code
produces two, the first of 3072 characters. -/
theorem c5_kitty_chunk_boundary_bug :
    (base64Chunks (List.replicate 2307 0) 3072).length = 2 ∧
    ((base64Chunks (List.replicate 2307 0) 3072).headD []).length = 3072 := by
  have hsan : sanitize_chunk_size 3072 = 3072 := by decide
  have hlen : (base64Encode (List.replicate 2307 0)).length = 3076 := by
    rw [base64Encode_length, List.length_replicate]
  have henc : base64Encode (List.replicate 2307 0) ≠ [] := by
    intro h
    rw [h] at hlen
    exact absurd hlen (by norm_num)
  have hchunks : base64Chunks (List.replicate 2307 0) 3072
      = chunksOf 3072 (base64Encode (List.replicate 2307 0)) := by
    unfold base64Chunks
    rw [if_neg henc, hsan]
  constructor
  · rw [hchunks, chunksOf_length]
    simp only [chunk_count, hlen]
  · rw [hchunks]
    unfold chunksOf
    simp only [chunk_count, hlen]
    have h2 : (3076 + 3072 - 1) / 3072 = 2 := by norm_num
    rw [h2, show List.range 2 = [0, 1] from rfl]
    simp only [List.map_cons, List.map_nil, List.headD_cons, List.length_take,
      List.length_drop, hlen]
    norm_num

/-- C9: the 256-color quantizer maps (0,0,0) to palette index 16,
(255,255,255) to 231, (255,0,0) to 196, (0,255,0) to 46 and (0,0,255)
to 21. -/
theorem c9_quantizer_values :
    rgb_to_256 0 0 0 = 16 ∧ rgb_to_256 255 255 255 = 231 ∧
    rgb_to_256 255 0 0 = 196 ∧ rgb_to_256 0 255 0 = 46 ∧
    rgb_to_256 0 0 255 = 21 := by
  decide

/-- C6: whenever all four quadrant pixels resolve to present colors that
are mutually similar (each within Euclidean RGB distance 30 of their
average, i.e. squared distance below 900) — in particular four identical
colors — the quarter-block selector returns the full-block glyph with the
averaged color as foreground and no background color. -/
theorem c6_similar_full_block (a b c d : Rgb)
    (h : colors_similar [a, b, c, d] (average_colors [a, b, c, d]) = true) :
    find_best_quarter_block (some a) (some b) (some c) (some d)
      = (QuarterBlock.Full, some (average_colors [a, b, c, d]), none) := by
  unfold find_best_quarter_block
  simp [h]

/-- Witness for C6 at four identical colors (10, 20, 30). -/
theorem c6_similar_full_block_witness :
    colors_similar [c6Color, c6Color, c6Color, c6Color]
      (average_colors [c6Color, c6Color, c6Color, c6Color]) = true ∧
    find_best_quarter_block (some c6Color) (some c6Color) (some c6Color)
        (some c6Color)
      = (QuarterBlock.Full,
         some (average_colors [c6Color, c6Color, c6Color, c6Color]), none) :=
  ⟨by decide, c6_similar_full_block c6Color c6Color c6Color c6Color (by decide)⟩

theorem clamp_toNat_eq (z : ℤ) : (max 0 (min 255 z)).toNat = min 255 z.toNat := by
  omega

theorem blend_channel_eq_spec (fg bg a : ℕ) :
    blend_channel fg bg a = specBlendChannel fg bg a := by
  simp only [blend_channel, specBlendChannel]
  rw [clamp_toNat_eq]

theorem checkerboard_iff (x y ps : ℕ) :
    checkerboard x y ps = true
      ↔ (x / (max ps 1 * 4) + y / (max ps 1 * 4)) % 2 = 0 := by
  have h1 : 1 ≤ max ps 1 := Nat.le_max_right _ _
  have htile : max (max ps 1 * 4) 1 = max ps 1 * 4 := by omega
  simp [checkerboard, htile]

/-- C4: with any background configured, a pixel with alpha ≥ 255 is left
entirely unchanged, and a pixel with alpha < 255 is replaced by
`out = fg*alpha + bg*(1-alpha)` per channel, rounded and clamped to
[0,255] with alpha forced to 255, where the background color at (x,y) is
the solid color when only a solid is configured, the pattern color when
only a pattern is configured, and a checkerboard of the two with tile
size `max(pattern_size,1)*4` alternating by `(x/tile + y/tile) % 2` when
both are configured. -/
theorem c4_blend_formula (image : Img) (x y : ℕ) (background : BackgroundStyle)
    (hbg : background.color ≠ none ∨ background.pattern ≠ none) :
    (255 ≤ (image.pix x y).a →
      (blend_transparency image background).pix x y = image.pix x y) ∧
    ((image.pix x y).a < 255 →
      (blend_transparency image background).pix x y
        = specBlendPixel x y (image.pix x y) background) := by
  have hnot : ¬ (background.color = none ∧ background.pattern = none) := by
    rcases hbg with h | h <;> exact fun hcp => h (by simp [hcp.1, hcp.2])
  unfold blend_transparency
  rw [if_neg hnot]
  constructor
  · intro h
    simp only [blend_pixel, if_pos h]
  · intro h
    simp only [blend_pixel, if_neg (by omega : ¬ 255 ≤ (image.pix x y).a)]
    rcases hc : background.color with _ | color <;>
      rcases hp : background.pattern with _ | pattern
    · exact absurd ⟨hc, hp⟩ hnot
    · simp [background_rgb, hc, hp, pattern_rgb, specBlendPixel, specBackground,
        blend_channel_eq_spec]
    · simp [background_rgb, hc, hp, specBlendPixel, specBackground,
        blend_channel_eq_spec]
    · by_cases hcb : (x / (max background.pattern_size 1 * 4)
          + y / (max background.pattern_size 1 * 4)) % 2 = 0
      · have hb : checkerboard x y background.pattern_size = true :=
          (checkerboard_iff _ _ _).mpr hcb
        simp [background_rgb, hc, hp, hb, pattern_rgb, specBlendPixel,
          specBackground, hcb, blend_channel_eq_spec]
      · have hb : checkerboard x y background.pattern_size = false := by
          rw [Bool.eq_false_iff]
          exact fun hh => hcb ((checkerboard_iff _ _ _).mp hh)
        simp [background_rgb, hc, hp, hb, pattern_rgb, specBlendPixel,
          specBackground, hcb, blend_channel_eq_spec]

/-- Witness for C4: a half-transparent orange pixel at (0,0) against a
solid dark-blue background. -/
theorem c4_blend_formula_witness :
    (c4Background.color ≠ none ∨ c4Background.pattern ≠ none) ∧
    ((255 ≤ (c4Image.pix 0 0).a →
       (blend_transparency c4Image c4Background).pix 0 0 = c4Image.pix 0 0) ∧
     ((c4Image.pix 0 0).a < 255 →
       (blend_transparency c4Image c4Background).pix 0 0
         = specBlendPixel 0 0 (c4Image.pix 0 0) c4Background)) :=
  ⟨Or.inl (by decide), c4_blend_formula c4Image 0 0 c4Background (Or.inl (by decide))⟩

/-- C1 counterexample: with `fit_height` set (and `fit_width` unset) the
half-block compositor does not select the height factor alone — at a 4×2
source with an explicit 2-cell width it computes min(1/2, 1) = 1/2
instead of the claimed height factor 1, because the Unicode paths never
consult `fit_height`. -/
theorem c1_fit_height_counterexample :
    half_scale 4 2 c1Sizing defaultTerminal
      ≠ specEffectiveScale (half_scale_width 4 c1Sizing defaultTerminal)
          (half_scale_height 2 c1Sizing defaultTerminal)
          c1Sizing.fit_width c1Sizing.fit_height := by
  have hw : half_scale_width 4 c1Sizing defaultTerminal = 1/2 := by
    norm_num [half_scale_width, half_max_width_cells, c1Sizing,
      RenderSizing.unconstrained, defaultTerminal, min_def]
  have hh : half_scale_height 2 c1Sizing defaultTerminal = 1 := by
    norm_num [half_scale_height, half_max_height_pixels, c1Sizing,
      RenderSizing.unconstrained, defaultTerminal, min_def]
  have hL : half_scale 4 2 c1Sizing defaultTerminal = 1/2 := by
    rw [half_scale, show c1Sizing.fit_width = false from rfl]
    rw [hw, hh]
    norm_num [min_def]
  have hR : specEffectiveScale (half_scale_width 4 c1Sizing defaultTerminal)
      (half_scale_height 2 c1Sizing defaultTerminal)
      c1Sizing.fit_width c1Sizing.fit_height = 1 := by
    rw [specEffectiveScale, show c1Sizing.fit_width = false from rfl,
      show c1Sizing.fit_height = true from rfl]
    simp [hh]
  rw [hL, hR]
  norm_num

/-- C1 amended: the three-way selection (fit_width ⇒ width factor,
fit_height ⇒ height factor, otherwise the minimum) holds as claimed in the
graphics-path sizing routine `scale_frame`; the Unicode half- and
quarter-block paths honor `fit_width` but ignore `fit_height`, behaving as
if it were always unset. -/
theorem c1_scale_selection (srcW srcH : ℕ) (sizing : RenderSizing)
    (terminal : TerminalSize) :
    scale_frame_selected_scale srcW srcH sizing terminal
      = specEffectiveScale (scale_frame_scale_width srcW sizing terminal)
          (scale_frame_scale_height srcH sizing terminal)
          sizing.fit_width sizing.fit_height ∧
    half_scale srcW srcH sizing terminal
      = specEffectiveScale (half_scale_width srcW sizing terminal)
          (half_scale_height srcH sizing terminal) sizing.fit_width false ∧
    quarter_scale srcW srcH sizing terminal
      = specEffectiveScale (quarter_scale_width srcW sizing terminal)
          (quarter_scale_height srcH sizing terminal) sizing.fit_width false := by
  refine ⟨rfl, ?_, ?_⟩ <;>
  · simp only [half_scale, quarter_scale, specEffectiveScale]
    cases sizing.fit_width <;> simp

/-- C2 (code bug): the sixel render path feeds the frame through
`scale_frame`, the downscaling Unicode-path scaler, rather than
`scale_frame_for_graphics` (which the source documents as the scaler for
the Kitty/iTerm2/Sixel graphics protocols and never calls from the sixel
path).  A 200×200 frame at a default 80×24 terminal is transmitted as a
24×24 bitmap, not at its full original resolution. -/
theorem c2_sixel_downscales :
    sixel_transmit_dims 200 200 RenderSizing.unconstrained defaultTerminal
      = (24, 24) ∧
    sixel_transmit_dims 200 200 RenderSizing.unconstrained defaultTerminal
      ≠ (200, 200) := by
  have hsel : scale_frame_selected_scale 200 200 RenderSizing.unconstrained
      defaultTerminal = 3/25 := by
    norm_num [scale_frame_selected_scale, scale_frame_scale_width,
      scale_frame_scale_height, scale_frame_max_width_cells,
      scale_frame_max_height_cells, RenderSizing.unconstrained,
      defaultTerminal, min_def]
  have hcl : scale_frame_clamped_scale 200 200 RenderSizing.unconstrained
      defaultTerminal = 3/25 := by
    rw [scale_frame_clamped_scale, hsel]
    norm_num [RenderSizing.unconstrained]
  have hfin : scale_frame_final_scale 200 200 RenderSizing.unconstrained
      defaultTerminal = 3/25 := by
    rw [scale_frame_final_scale, hcl]
    norm_num [RenderSizing.unconstrained]
  have hfl : (⌊(24 : ℚ) + 1/2⌋ : ℤ) = 24 := by
    apply Int.floor_eq_iff.mpr
    constructor <;> norm_num
  have h24 : rustRound (24 : ℚ) = 24 := by
    rw [rustRound, hfl]
    rfl
  have hdims : sixel_transmit_dims 200 200 RenderSizing.unconstrained
      defaultTerminal = (24, 24) := by
    rw [sixel_transmit_dims, scale_frame_target_dims, hfin]
    norm_num [h24]
  exact ⟨hdims, by rw [hdims]; decide⟩

/-- C3 counterexample: the Unicode paths never apply the integer-upscale
flooring — with `upscale` and `upscale_integer` set and an explicit
5-cell width, a 2×2 source gets the non-integer applied scale 5/2 on the
half-block path (the claim requires an integer ≥ 1 there). -/
theorem c3_integer_upscale_counterexample :
    c3Sizing.upscale_integer = true ∧
    1 < half_scale 2 2 c3Sizing defaultTerminal ∧
    ¬ ∃ n : ℤ, half_scale 2 2 c3Sizing defaultTerminal = (n : ℚ) := by
  have hval : half_scale 2 2 c3Sizing defaultTerminal = 5/2 := by
    rw [half_scale, show c3Sizing.fit_width = true from rfl]
    norm_num [half_scale_width, half_max_width_cells, c3Sizing,
      RenderSizing.unconstrained, defaultTerminal, min_def]
  refine ⟨rfl, by rw [hval]; norm_num, ?_⟩
  rintro ⟨n, hn⟩
  rw [hval] at hn
  have h2 : (n : ℚ) * 2 = 5 := by rw [← hn]; norm_num
  have h3 : (n * 2 : ℤ) = 5 := by exact_mod_cast h2
  omega

/-- C3 amended: with `upscale = false` the applied scale never exceeds 1.0
on any scaling render path (`scale_frame`, half-block, quarter-block);
with `upscale_integer = true` and a would-be scale above 1.0 the applied
scale is an integer ≥ 1 on the graphics-path sizing routine
(`scale_frame`) — the Unicode paths ignore `upscale_integer`. -/
theorem c3_scale_bounds (srcW srcH : ℕ) (sizing : RenderSizing)
    (terminal : TerminalSize) :
    (sizing.upscale = false →
      scale_frame_final_scale srcW srcH sizing terminal ≤ 1 ∧
      half_scale srcW srcH sizing terminal ≤ 1 ∧
      quarter_scale srcW srcH sizing terminal ≤ 1) ∧
    (sizing.upscale_integer = true →
      1 < scale_frame_clamped_scale srcW srcH sizing terminal →
      ∃ n : ℤ, 1 ≤ n ∧
        scale_frame_final_scale srcW srcH sizing terminal = (n : ℚ)) := by
  constructor
  · intro hup
    have hcl : scale_frame_clamped_scale srcW srcH sizing terminal ≤ 1 := by
      rw [scale_frame_clamped_scale]
      split
      · exact le_refl 1
      · rename_i hcond
        by_cases h1 : 1 < scale_frame_selected_scale srcW srcH sizing terminal
        · exact absurd ⟨h1, hup⟩ hcond
        · exact le_of_not_lt h1
    refine ⟨?_, ?_, ?_⟩
    · rw [scale_frame_final_scale]
      rw [if_neg]
      · exact hcl
      · rintro ⟨_, hlt⟩
        exact absurd hcl (not_le.mpr hlt)
    · rw [half_scale]
      have hw : half_scale_width srcW sizing terminal ≤ 1 := by
        rw [half_scale_width, if_pos hup]
        exact min_le_right _ _
      have hh : half_scale_height srcH sizing terminal ≤ 1 := by
        rw [half_scale_height, if_pos hup]
        exact min_le_right _ _
      split
      · exact hw
      · exact le_trans (min_le_left _ _) hw
    · rw [quarter_scale]
      have hw : quarter_scale_width srcW sizing terminal ≤ 1 := by
        rw [quarter_scale_width, if_pos hup]
        exact min_le_right _ _
      split
      · exact hw
      · exact le_trans (min_le_left _ _) hw
  · intro hint hgt
    refine ⟨max ⌊scale_frame_clamped_scale srcW srcH sizing terminal⌋ 1,
      le_max_right _ _, ?_⟩
    rw [scale_frame_final_scale, if_pos ⟨hint, hgt⟩]
    push_cast
    rfl

/-- Witness for C3 (amended) at a 2×2 source with the unconstrained
policy. -/
theorem c3_scale_bounds_witness :
    RenderSizing.unconstrained.upscale = false ∧
    (scale_frame_final_scale 2 2 RenderSizing.unconstrained defaultTerminal ≤ 1 ∧
     half_scale 2 2 RenderSizing.unconstrained defaultTerminal ≤ 1 ∧
     quarter_scale 2 2 RenderSizing.unconstrained defaultTerminal ≤ 1) :=
  ⟨rfl, (c3_scale_bounds 2 2 RenderSizing.unconstrained defaultTerminal).1 rfl⟩

/-- C7: rendering a 2×2 fully opaque red frame through the half-block
compositor with an explicit width of 1 cell and no height constraint
yields exactly one output line, consisting of a foreground-red escape, a
background-red escape, the upper-half-block glyph and a trailing
full-reset escape.  The external resampler is assumed only to map the
red 2×2 source at target size 1×2 to an all-red 1×2 buffer, which any
weighted-average resampler does on a constant image. -/
theorem c7_red_half_block (resample : Img → ℕ → ℕ → Img)
    (hw : (resample redFrame.pixels 1 2).width = 1)
    (hh : (resample redFrame.pixels 1 2).height = 2)
    (hp : ∀ x y, (resample redFrame.pixels 1 2).pix x y = redPixel) :
    (render_half_blocks resample redFrame c7Options).lines = [redLine] := by
  have hfw : redFrame.pixels.width = 2 := rfl
  have hfh : redFrame.pixels.height = 2 := rfl
  have hsw : half_scale_width 2 c7Options.sizing c7Options.terminal = 1/2 := by
    norm_num [half_scale_width, half_max_width_cells, c7Options,
      RenderSizing.unconstrained, defaultTerminal, min_def]
  have hsh : half_scale_height 2 c7Options.sizing c7Options.terminal = 1 := by
    norm_num [half_scale_height, half_max_height_pixels, c7Options,
      RenderSizing.unconstrained, defaultTerminal, min_def]
  have hs : half_scale 2 2 c7Options.sizing c7Options.terminal = 1/2 := by
    rw [half_scale, show c7Options.sizing.fit_width = false from rfl, hsw, hsh]
    norm_num [min_def]
  have hfl1 : (⌊(1 : ℚ) + 1/2⌋ : ℤ) = 1 := by
    apply Int.floor_eq_iff.mpr
    constructor <;> norm_num
  have hrr : rustRound (1 : ℚ) = 1 := by rw [rustRound, hfl1]; rfl
  have hdims : half_target_dims 2 2 c7Options.sizing c7Options.terminal
      = (1, 2) := by
    simp only [half_target_dims]
    rw [hs]
    norm_num [hrr, half_max_width_cells, c7Options, RenderSizing.unconstrained,
      defaultTerminal, min_def]
  simp only [render_half_blocks]
  rw [hfw, hfh, hdims]
  rw [if_neg (by decide : ¬((1, 2).1 = 2 ∧ (1, 2).2 = 2))]
  rw [hh, show (2 + 1) / 2 = 1 from rfl, show List.range 1 = [0] from rfl]
  simp only [List.map_cons, List.map_nil]
  congr 1
  simp only [half_block_line, hh, hw, hp]
  decide

/-- Witness for C7, instantiating the resampler hypothesis with the
constant-red resampler. -/
theorem c7_red_half_block_witness :
    (constRedResample redFrame.pixels 1 2).width = 1 ∧
    (render_half_blocks constRedResample redFrame c7Options).lines = [redLine] :=
  ⟨rfl, c7_red_half_block constRedResample rfl rfl (fun _ _ => rfl)⟩
